import Mathlib

/-!
Verification of the Lumina backend's ingestion and retrieval core.

Each definition below is a shallow embedding of a function of the
repository (file and line references are given at each definition).
Machine-level effects (database writes, network calls, asyncio
scheduling) are made explicit: fallible calls become values of
`Except String`, emitted side effects become event lists, the asyncio
semaphore becomes a transition system, and Python strings become
`String` (or `List Char` where substring scanning matters).
-/

namespace Lumina

/-! ## Batch embedding/upsert scheduler
`src/services/document_service.py`, `DocumentService.process_document`
lines 69-125: chunks are sliced into batches of 25, each batch keeps its
start offset, and each chunk's metadata gets `chunk_id = start_index + k`.
-/

/-- Python's `range(start, stop, step)` for a positive `step`: the
values `start + k * step` that are below `stop`. -/
def pyRange (start stop step : Nat) : List Nat :=
  (List.range ((stop - start + step - 1) / step)).map (fun k => start + k * step)

/-- `document_service.py` lines 73-76: `for i in range(0, len(chunks), batch_size):
batches.append((i, chunks[i:i + batch_size]))`.  `chunks[i:i+b]` is
`(chunks.drop i).take b`. -/
def mkBatches (chunks : List String) (batchSize : Nat) : List (Nat × List String) :=
  (pyRange 0 chunks.length batchSize).map (fun i => (i, (chunks.drop i).take batchSize))

/-- The payload stored with one vector, `document_service.py` lines 94-101. -/
structure ChunkMeta where
  document_id : String
  document_name : String
  chunk_id : Nat
deriving DecidableEq, Repr

/-- `document_service.py` lines 94-101: the metadata list of one batch,
`chunk_id = start_index + k` for `k in range(len(batch_data))`. -/
def batchMetadata (documentId filename : String) (startIndex : Nat)
    (batchData : List String) : List ChunkMeta :=
  (List.range batchData.length).map
    (fun k => ⟨documentId, filename, startIndex + k⟩)

/-- The (text, payload) pairs one batch hands to
`qdrant_service.upsert_chunks` (`qdrant_service.py` lines 98-110 zips
chunks with their metadata into points). -/
def batchPoints (documentId filename : String) (batch : Nat × List String) :
    List (String × ChunkMeta) :=
  batch.2.zip (batchMetadata documentId filename batch.1 batch.2)

/-- Specification-side description of the persisted points: chunk `i`
paired with metadata carrying `chunk_id = s + i`. -/
def indexedPoints (documentId filename : String) (start : Nat) :
    List String → List (String × ChunkMeta)
  | [] => []
  | c :: cs =>
    (c, ⟨documentId, filename, start⟩) :: indexedPoints documentId filename (start + 1) cs

/-! ## Substring scanning
Python's `pat in s` and `s.split(pat)` (used by the retry classifier and
by the streaming endpoint) over explicit character lists. -/

/-- Does `pat` occur at the head of `s`? -/
def leadsWith : List Char → List Char → Bool
  | [], _ => true
  | _ :: _, [] => false
  | a :: as, b :: bs => a == b && leadsWith as bs

/-- The first occurrence of `pat` in `s`: `some (pre, post)` splits `s`
as `pre ++ pat ++ post` at the first occurrence, `none` when `pat` does
not occur. -/
def findSplit (pat : List Char) : List Char → Option (List Char × List Char)
  | [] => none
  | c :: rest =>
    if leadsWith pat (c :: rest) then some ([], (c :: rest).drop pat.length)
    else
      match findSplit pat rest with
      | none => none
      | some (pre, post) => some (c :: pre, post)

/-- Python's `pat in s` for a nonempty `pat`. -/
def occursIn (pat s : List Char) : Bool := (findSplit pat s).isSome

/-- Python's `pat in s` on `String`s. -/
def strOccurs (pat s : String) : Bool := occursIn pat.toList s.toList

/-! ## Per-batch retry loop
`src/services/document_service.py`, `process_batch`, lines 83-121. -/

/-- Outcome of one attempt of a batch's body (embed + upsert),
`document_service.py` lines 88-109: either the work succeeds and the
batch returns, or an exception with text `msg` is raised. -/
inductive AttemptResult where
  | success
  | failure (msg : String)
deriving DecidableEq, Repr

/-- What `process_batch` does for one batch: returns normally after
`attemptsUsed` attempts having slept the backoffs in `sleeps`, or
re-raises `msg`, which propagates through `asyncio.gather` and aborts the
document. -/
inductive BatchResult where
  | ok (attemptsUsed : Nat) (sleeps : List ℚ)
  | fatal (msg : String) (attemptsUsed : Nat) (sleeps : List ℚ)
deriving DecidableEq, Repr

/-- `document_service.py` line 113:
`"429" in str(e) or "Too Many Requests" in str(e)`. -/
def isRateLimitMsg (msg : String) : Bool :=
  strOccurs "429" msg || strOccurs "Too Many Requests" msg

/-- `document_service.py` line 115:
`wait_time = (2 ** attempt) + (0.1 * (batch_idx % 5))` seconds (the
Python float is modelled as the rational it denotes). -/
def waitTime (attempt batchIdx : Nat) : ℚ :=
  2 ^ attempt + ((batchIdx % 5 : Nat) : ℚ) / 10

/-- `document_service.py` lines 86-121, the `for attempt in range(retries)`
loop.  `remaining` is the number of later attempts still available
(`retries - 1 - attempt`).  The body: on success, return (one upsert has
happened); on an exception whose text is rate-limit-class and with a
later attempt available, sleep `waitTime attempt` and retry; otherwise,
if this was the last attempt, re-raise; otherwise the loop just continues
with no sleep — there is no `raise` on that path.  The fuel-0 inner case
is Python's fall-through return after the loop, unreachable from
`processBatch` since the last attempt always returns or raises. -/
def runAttempts (batchIdx : Nat) (outcome : Nat → AttemptResult) :
    Nat → Nat → List ℚ → BatchResult
  | 0, attempt, sleeps => .ok attempt sleeps
  | remaining + 1, attempt, sleeps =>
    match outcome attempt with
    | .success => .ok (attempt + 1) sleeps
    | .failure msg =>
      match remaining with
      | 0 => .fatal msg (attempt + 1) sleeps
      | r + 1 =>
        if isRateLimitMsg msg then
          runAttempts batchIdx outcome (r + 1) (attempt + 1)
            (sleeps ++ [waitTime attempt batchIdx])
        else
          runAttempts batchIdx outcome (r + 1) (attempt + 1) sleeps

/-- `process_batch(batch_idx, start_index, batch_data)` with `retries = 3`:
`outcome attempt` is what the body (embedding call + upsert call) does on
attempt number `attempt`. -/
def processBatch (batchIdx : Nat) (outcome : Nat → AttemptResult) : BatchResult :=
  runAttempts batchIdx outcome 3 0 []

/-- The attempt oracle of a batch whose first attempt raises a
non-rate-limit error and whose second attempt succeeds. -/
def nonRateLimitThenOk : Nat → AttemptResult :=
  fun n => if n = 0 then .failure "database connection lost" else .success

/-! ## Streaming response assembly
`src/services/rag_service.py`, `get_answer_stream`, lines 139-199, and
`src/api/v1/endpoints/chat.py`, `stream_and_save`, lines 111-147. -/

/-- The reserved literal `"__SOURCES__:"` (`rag_service.py` line 195). -/
def marker : List Char := ['_', '_', 'S', 'O', 'U', 'R', 'C', 'E', 'S', '_', '_', ':']

/-- `"\n\n"`: `rag_service.py` line 195 prefixes the marker with a blank line. -/
def blankSep : List Char := ['\n', '\n']

/-- `"Error: "`: `rag_service.py` line 199 yields inline error text. -/
def errorLead : List Char := ['E', 'r', 'r', 'o', 'r', ':', ' ']

/-- `get_answer_stream`, success path (lines 167-195): each answer delta
is yielded, then one final chunk `"\n\n__SOURCES__:" + json.dumps(sources)`. -/
def ragStreamOk (deltas : List (List Char)) (sourcesJson : List Char) :
    List (List Char) :=
  deltas ++ [blankSep ++ marker ++ sourcesJson]

/-- `get_answer_stream`, error path (lines 197-199): the deltas produced
before the exception, then `"Error: " + str(e)`; no marker chunk is
yielded. -/
def ragStreamErr (deltas : List (List Char)) (errMsg : List Char) :
    List (List Char) :=
  deltas ++ [errorLead ++ errMsg]

/-- One iteration of `stream_and_save` (`chat.py` lines 121-136), what it
yields for one incoming chunk: a chunk containing the marker is split and
`parts[0]` is yielded, then the whole chunk is yielded again ("Forward
the marker to frontend"); any other chunk passes through once. -/
def chunkEmit (chunk : List Char) : List (List Char) :=
  match findSplit marker chunk with
  | some (pre, _) => [pre, chunk]
  | none => [chunk]

/-- The text one iteration of `stream_and_save` adds to `full_answer`
(`chat.py` lines 124 and 135): `parts[0]` of a marker chunk, the whole
chunk otherwise. -/
def chunkKept (chunk : List Char) : List Char :=
  match findSplit marker chunk with
  | some (pre, _) => pre
  | none => chunk

/-- `stream_and_save` (`chat.py` lines 111-147): the sequence of chunks
sent to the client, and the `content` of the assistant message persisted
when the stream ends.  (The source-list JSON parse at lines 128-131
affects neither and is not modelled.) -/
def streamAndSave (chunks : List (List Char)) : List (List Char) × List Char :=
  (chunks.flatMap chunkEmit, (chunks.map chunkKept).flatten)

/-- The answer text a client reading the emitted chunks in order sees
before the first chunk carrying the `__SOURCES__:` marker (the protocol
never splits the marker across chunks). -/
def textBeforeMarker : List (List Char) → List Char
  | [] => []
  | c :: rest =>
    match findSplit marker c with
    | some (pre, _) => pre
    | none => c ++ textBeforeMarker rest

/-! ## Ingestion orchestrator
`src/services/document_service.py`, `DocumentService.process_document`,
lines 21-140. -/

/-- An observable action of one `process_document` run: a status write
(through `_update_document_status`), the `create_collection` call, or one
batch's completed upsert. -/
inductive PEvent where
  | statusW (status : String) (msg : Option String)
  | collCreate
  | upsertEv
deriving DecidableEq, Repr

/-- What each call delegated by one `process_document` run does.
`extractRes`: `FileParser.extract_text` (`.error e` = raised `e`,
`.ok none` = returned `None`, `.ok (some t)` = returned text `t`);
`chunksRes`: `TextChunker.chunk_text`; `collectionRes`:
`qdrant_service.create_collection`; `batchRes`: the outcome of
`asyncio.gather` over the batch tasks (`.error e` = some batch re-raised
`e`); `upsertsDone`: how many batch upserts completed during the gather
(they are not rolled back on failure). -/
structure ProcEnv where
  extractRes : Except String (Option String)
  chunksRes : Except String (List String)
  collectionRes : Except String Unit
  upsertsDone : Nat
  batchRes : Except String Unit

/-- `process_document` as the sequence of observable events it produces.
Any exception escaping a step reaches the `except` block at line 138,
which writes `failed` with the raised error's text.  Empty extraction
writes `failed "Failed to extract text"` (line 42); empty chunking writes
`failed "No chunks generated"` (line 55).  Topic generation (lines
131-136) catches its own errors and never writes a status, so it
contributes no event after `completed`. -/
def processEvents (env : ProcEnv) : List PEvent :=
  PEvent.statusW "processing" none
    :: PEvent.statusW "processing" (some "Extracting text...")
    :: (match env.extractRes with
  | .error e => [PEvent.statusW "failed" (some e)]
  | .ok textRes =>
    if textRes.getD "" = "" then
      [PEvent.statusW "failed" (some "Failed to extract text")]
    else
      PEvent.statusW "processing" (some "Chunking text...")
        :: (match env.chunksRes with
      | .error e => [PEvent.statusW "failed" (some e)]
      | .ok chunks =>
        if chunks = [] then [PEvent.statusW "failed" (some "No chunks generated")]
        else
          PEvent.collCreate
            :: (match env.collectionRes with
          | .error e => [PEvent.statusW "failed" (some e)]
          | .ok _ =>
            PEvent.statusW "processing"
                (some ("Generating embeddings ("
                  ++ toString chunks.length ++ " chunks)..."))
              :: (List.replicate env.upsertsDone PEvent.upsertEv
                ++ match env.batchRes with
                  | .error e => [PEvent.statusW "failed" (some e)]
                  | .ok _ => [PEvent.statusW "completed" none]))))

/-- The status writes of a run, in order. -/
def statusWrites (evs : List PEvent) : List (String × Option String) :=
  evs.filterMap (fun e =>
    match e with
    | .statusW s m => some (s, m)
    | _ => none)

/-- A run in which extraction and chunking succeed with nonempty results
and the batch phase would succeed, but `create_collection` raises. -/
def envCollectionDown : ProcEnv :=
  ⟨.ok (some "text"), .ok ["chunk"], .error "Connection refused", 0, .ok ()⟩

/-- A run whose extraction returns the empty string. -/
def envEmptyExtract : ProcEnv :=
  ⟨.ok (some ""), .ok ["chunk"], .ok (), 0, .ok ()⟩

/-! ## Multi-query retrieval merge
`src/services/mcq_service.py`, `_get_context_content`, lines 192-254, and
`src/services/evaluation_service.py`, `_get_relevant_context`, lines
283-339. -/

/-- One similarity-search hit as `qdrant_service.search` returns it
(`qdrant_service.py` lines 180-188).  The float `score` is modelled as a
rational; only `text` is inspected by the merge. -/
structure SearchHit where
  id : String
  score : ℚ
  text : String
  document_id : String
  chunk_id : Nat
deriving DecidableEq, Repr

/-- The body of the shared inner loop of both merge functions
(`mcq_service.py` lines 238-241, `evaluation_service.py` lines 325-328):
`if hit["text"] not in seen_texts: all_hits.append(hit);
seen_texts.add(hit["text"])`.  The Python set is modelled as the list of
texts added so far (membership is all that is used). -/
def mergeStep (acc : List SearchHit × List String) (h : SearchHit) :
    List SearchHit × List String :=
  if h.text ∈ acc.2 then acc else (acc.1 ++ [h], acc.2 ++ [h.text])

/-- `mcq_service._get_context_content` steps 2-3: iterate the queries'
search-result lists in query order with one shared `seen_texts`, then
`final_chunks = [hit["text"] for hit in all_hits][:num_chunks]`. -/
def mcqFinalChunks (results : List (List SearchHit)) (numChunks : Nat) : List String :=
  (((results.foldl (fun acc hits => hits.foldl mergeStep acc) ([], [])).1).map
    (fun h => h.text)).take numChunks

/-- `evaluation_service._get_relevant_context`: the same shared-seen fold;
the context joins `[hit["text"] for hit in all_hits[:num_chunks]]`
(slice first, then project the text). -/
def evalFinalChunks (results : List (List SearchHit)) (numChunks : Nat) : List String :=
  (((results.foldl (fun acc hits => hits.foldl mergeStep acc) ([], [])).1).take
    numChunks).map (fun h => h.text)

/-- Specification-side first-occurrence-wins deduplication by hit text. -/
def dedupFirstAux (seen : List String) : List SearchHit → List SearchHit
  | [] => []
  | h :: t =>
    if h.text ∈ seen then dedupFirstAux seen t
    else h :: dedupFirstAux (seen ++ [h.text]) t

/-- First-occurrence-wins deduplication of a hit list by text. -/
def dedupFirst (l : List SearchHit) : List SearchHit := dedupFirstAux [] l

/-! ## Similarity-search filters
`src/services/rag_service.py`, `_get_retrieval_chain`, lines 38-55, and
`src/services/qdrant_service.py`, `search`, lines 139-155. -/

/-- A Qdrant `FieldCondition(key=..., match=MatchValue(value=...))`. -/
structure FieldCondition where
  key : String
  matchValue : String
deriving DecidableEq, Repr

/-- A Qdrant `Filter` as these two call sites build it: every `must`
condition is required; when `should` is nonempty, at least one `should`
condition is required. -/
structure QdrantFilter where
  must : List FieldCondition
  should : List FieldCondition
deriving DecidableEq, Repr

/-- The payload of a stored vector, as far as these filters inspect it. -/
structure PointPayload where
  document_id : String
deriving DecidableEq, Repr

/-- Payload lookup for the one key these filters use. -/
def lookupField (p : PointPayload) (k : String) : Option String :=
  if k = "document_id" then some p.document_id else none

/-- One `FieldCondition` evaluated on a point. -/
def condMatches (p : PointPayload) (c : FieldCondition) : Bool :=
  lookupField p c.key == some c.matchValue

/-- Qdrant's filter semantics on one point. -/
def filterMatches (p : PointPayload) (f : QdrantFilter) : Bool :=
  f.must.all (condMatches p) && (f.should.isEmpty || f.should.any (condMatches p))

/-- `rag_service.py` lines 44-51: the retrieval chain's filter puts one
condition per selected document id into `must`:
`Filter(must=[FieldCondition(key="document_id", match=MatchValue(value=doc_id))
for doc_id in selected_documents])`. -/
def ragChainFilter (selectedDocuments : List String) : QdrantFilter :=
  ⟨selectedDocuments.map (fun d => ⟨"document_id", d⟩), []⟩

/-- `qdrant_service.py` lines 141-155: `search` puts one condition per
requested id into `should` (OR), and passes no filter for an empty list. -/
def searchQueryFilter (documentIds : List String) : Option QdrantFilter :=
  if documentIds.isEmpty then none
  else some ⟨[], documentIds.map (fun d => ⟨"document_id", d⟩)⟩

/-- `query_filter=None` matches everything. -/
def optFilterMatches (p : PointPayload) : Option QdrantFilter → Bool
  | none => true
  | some f => filterMatches p f

/-! ## Concurrency gate
`document_service.py` lines 80-84: `semaphore = asyncio.Semaphore(10)`;
each batch task runs its whole body inside `async with semaphore`. -/

/-- Where one batch task stands relative to the semaphore-guarded
embed-or-upsert section. -/
inductive TaskPhase where
  | idle
  | working
  | done
deriving DecidableEq, Repr

/-- The event loop's state: the semaphore counter and each task's phase. -/
structure SchedState where
  sem : Nat
  tasks : List TaskPhase
deriving DecidableEq, Repr

/-- Number of tasks currently inside the guarded section. -/
def countWorking (ts : List TaskPhase) : Nat :=
  ts.countP (fun t => t == TaskPhase.working)

/-- One step of the single-threaded event loop: `acquire` admits an idle
task when the counter is positive (`async with semaphore` entry, which
blocks at counter 0), `finish` completes a working task and releases the
counter (section exit, normal or by exception). -/
inductive SchedStep : SchedState → SchedState → Prop where
  | acquire (s : SchedState) (i : Nat)
      (hi : s.tasks.get? i = some TaskPhase.idle) (hs : 0 < s.sem) :
      SchedStep s ⟨s.sem - 1, s.tasks.set i TaskPhase.working⟩
  | finish (s : SchedState) (i : Nat)
      (hi : s.tasks.get? i = some TaskPhase.working) :
      SchedStep s ⟨s.sem + 1, s.tasks.set i TaskPhase.done⟩

/-- Start of an ingestion with `n` batch tasks: counter 10, all pending. -/
def initSched (n : Nat) : SchedState := ⟨10, List.replicate n TaskPhase.idle⟩

/-- States the ingestion's event loop can reach. -/
inductive SchedReachable (n : Nat) : SchedState → Prop where
  | init : SchedReachable n (initSched n)
  | step {s s' : SchedState} :
      SchedReachable n s → SchedStep s s' → SchedReachable n s'

/-! ## Status update helper
`document_service.py`, `_update_document_status`, lines 142-161. -/

/-- The `documents` row fields the helper writes. -/
structure DocumentRow where
  upload_status : String
  error_message : Option String
deriving DecidableEq, Repr

/-- The update dict applied by the helper's single `.update(...)` call
(lines 150-158): `upload_status` is always written; `error_message` is
cleared when the status is `completed`, set when a truthy (non-empty)
message is given, and left untouched otherwise. -/
def applyStatusUpdate (doc : DocumentRow) (status : String)
    (message : Option String) : DocumentRow :=
  if status = "completed" then ⟨status, none⟩
  else
    match message with
    | some m => if m = "" then ⟨status, doc.error_message⟩ else ⟨status, some m⟩
    | none => ⟨status, doc.error_message⟩

/-- The database call itself, which may raise (`dbFails = true`). -/
def statusUpdateExec (dbFails : Bool) (doc : DocumentRow) (status : String)
    (message : Option String) : Except String DocumentRow :=
  if dbFails then .error "database error"
  else .ok (applyStatusUpdate doc status message)

/-- `_update_document_status`: the try/except (lines 149-161) wraps the
call, logs any exception and returns normally; the result is the stored
row after the call. -/
def updateDocumentStatus (dbFails : Bool) (doc : DocumentRow) (status : String)
    (message : Option String) : Except String DocumentRow :=
  match statusUpdateExec dbFails doc status message with
  | .ok d => .ok d
  | .error _ => .ok doc

end Lumina

namespace Lumina

/-- C2 (amended): `process_batch`'s retry behaviour over its three
attempts: EVERY error class is retried until the attempts run out — a
rate-limit-class error (text containing "429" or "Too Many Requests")
sleeps `2^attempt + 0.1*(batchIdx % 5)` seconds before the next attempt,
any other error retries immediately with no sleep — and only the error
raised by the third failed attempt propagates to the orchestrator. -/
theorem processBatch_policy (b : Nat) (o : Nat → AttemptResult) :
    processBatch b o =
      match o 0 with
      | .success => .ok 1 []
      | .failure m0 =>
        match o 1 with
        | .success => .ok 2 (if isRateLimitMsg m0 then [waitTime 0 b] else [])
        | .failure m1 =>
          match o 2 with
          | .success =>
            .ok 3 ((if isRateLimitMsg m0 then [waitTime 0 b] else [])
              ++ (if isRateLimitMsg m1 then [waitTime 1 b] else []))
          | .failure m2 =>
            .fatal m2 3 ((if isRateLimitMsg m0 then [waitTime 0 b] else [])
              ++ (if isRateLimitMsg m1 then [waitTime 1 b] else [])) := by
  cases h0 : o 0 with
  | success => simp [processBatch, runAttempts, h0]
  | failure m0 =>
    cases h1 : o 1 with
    | success =>
      by_cases hr0 : isRateLimitMsg m0 <;>
        simp [processBatch, runAttempts, h0, h1, hr0]
    | failure m1 =>
      cases h2 : o 2 with
      | success =>
        by_cases hr0 : isRateLimitMsg m0 <;> by_cases hr1 : isRateLimitMsg m1 <;>
          simp [processBatch, runAttempts, h0, h1, h2, hr0, hr1]
      | failure m2 =>
        by_cases hr0 : isRateLimitMsg m0 <;> by_cases hr1 : isRateLimitMsg m1 <;>
          simp [processBatch, runAttempts, h0, h1, h2, hr0, hr1]

/-- A batch whose first attempt raises a non-rate-limit error is NOT
immediately fatal: the loop silently runs a second attempt, which here
succeeds, so the batch completes instead of propagating the error. -/
theorem processBatch_counterexample :
    processBatch 0 nonRateLimitThenOk = BatchResult.ok 2 []
      ∧ isRateLimitMsg "database connection lost" = false
      ∧ processBatch 0 nonRateLimitThenOk
          ≠ BatchResult.fatal "database connection lost" 1 [] := by
  decide

theorem leadsWith_append_self : ∀ (p t : List Char), leadsWith p (p ++ t) = true := by
  intro p
  induction p with
  | nil => intro t; rfl
  | cons a as ih =>
    intro t
    simp [leadsWith, ih t]

theorem findSplit_cons_pos (pat : List Char) (c : Char) (rest : List Char)
    (h : leadsWith pat (c :: rest) = true) :
    findSplit pat (c :: rest) = some ([], (c :: rest).drop pat.length) := by
  simp [findSplit, h]

theorem findSplit_cons_neg (pat : List Char) (c : Char) (rest : List Char)
    (h : leadsWith pat (c :: rest) = false) :
    findSplit pat (c :: rest)
      = match findSplit pat rest with
        | none => none
        | some (pre, post) => some (c :: pre, post) := by
  simp [findSplit, h]

theorem findSplit_self_append (a : Char) (as t : List Char) :
    findSplit (a :: as) ((a :: as) ++ t) = some ([], t) := by
  have h : leadsWith (a :: as) (a :: (as ++ t)) = true := by
    rw [show a :: (as ++ t) = (a :: as) ++ t from rfl]
    exact leadsWith_append_self _ _
  rw [show (a :: as) ++ t = a :: (as ++ t) from rfl]
  rw [findSplit_cons_pos _ _ _ h]
  have hd : (a :: (as ++ t)).drop (a :: as).length = t := by
    rw [show a :: (as ++ t) = (a :: as) ++ t from rfl, List.drop_left]
  rw [hd]

theorem leadsWith_marker_newline (x : List Char) :
    leadsWith marker ('\n' :: x) = false := by
  show (('_' == '\n')
      && leadsWith ['_', 'S', 'O', 'U', 'R', 'C', 'E', 'S', '_', '_', ':'] x) = false
  rw [show ('_' == '\n') = false from by decide, Bool.false_and]

theorem findSplit_marker_sources (json : List Char) :
    findSplit marker (blankSep ++ (marker ++ json)) = some (blankSep, json) := by
  have e : blankSep ++ (marker ++ json) = '\n' :: ('\n' :: (marker ++ json)) := rfl
  rw [e]
  rw [findSplit_cons_neg _ _ _ (leadsWith_marker_newline _)]
  rw [findSplit_cons_neg _ _ _ (leadsWith_marker_newline _)]
  have hself : findSplit marker (marker ++ json) = some ([], json) := by
    rw [show (marker : List Char)
        = '_' :: ['_', 'S', 'O', 'U', 'R', 'C', 'E', 'S', '_', '_', ':'] from rfl]
    exact findSplit_self_append _ _ _
  rw [hself]
  rfl

theorem chunkEmit_none (c : List Char) (h : findSplit marker c = none) :
    chunkEmit c = [c] := by
  simp [chunkEmit, h]

theorem chunkKept_none (c : List Char) (h : findSplit marker c = none) :
    chunkKept c = c := by
  simp [chunkKept, h]

theorem chunkEmit_sources (json : List Char) :
    chunkEmit (blankSep ++ marker ++ json)
      = [blankSep, blankSep ++ marker ++ json] := by
  simp [chunkEmit, findSplit_marker_sources]

theorem chunkKept_sources (json : List Char) :
    chunkKept (blankSep ++ marker ++ json) = blankSep := by
  simp [chunkKept, findSplit_marker_sources]

theorem textBeforeMarker_cons_none (c : List Char) (rest : List (List Char))
    (h : findSplit marker c = none) :
    textBeforeMarker (c :: rest) = c ++ textBeforeMarker rest := by
  simp [textBeforeMarker, h]

theorem textBeforeMarker_cons_some (c : List Char) (rest : List (List Char))
    (pre post : List Char) (h : findSplit marker c = some (pre, post)) :
    textBeforeMarker (c :: rest) = pre := by
  simp [textBeforeMarker, h]

theorem flatMap_chunkEmit_passthrough (ds : List (List Char))
    (h : ∀ d ∈ ds, findSplit marker d = none) :
    ds.flatMap chunkEmit = ds := by
  induction ds with
  | nil => rfl
  | cons d t ih =>
    rw [List.flatMap_cons, chunkEmit_none _ (h d (by simp)),
      ih (fun x hx => h x (by simp [hx]))]
    rfl

theorem flatten_map_chunkKept_passthrough (ds : List (List Char))
    (h : ∀ d ∈ ds, findSplit marker d = none) :
    (ds.map chunkKept).flatten = ds.flatten := by
  induction ds with
  | nil => rfl
  | cons d t ih =>
    rw [List.map_cons, List.flatten_cons, chunkKept_none _ (h d (by simp)),
      ih (fun x hx => h x (by simp [hx])), List.flatten_cons]

theorem textBeforeMarker_append_none (ds rest : List (List Char))
    (h : ∀ d ∈ ds, findSplit marker d = none) :
    textBeforeMarker (ds ++ rest) = ds.flatten ++ textBeforeMarker rest := by
  induction ds with
  | nil => simp
  | cons d t ih =>
    rw [List.cons_append, textBeforeMarker_cons_none _ _ (h d (by simp)),
      ih (fun x hx => h x (by simp [hx])), List.flatten_cons, List.append_assoc]

theorem pyRange_zero_step_pos (stop step : Nat) (hstep : 0 < step) (hstop : 0 < stop) :
    pyRange 0 stop step
      = 0 :: (pyRange 0 (stop - step) step).map (· + step) := by
  unfold pyRange
  have h1 : (stop - 0 + step - 1) / step = (stop - step - 0 + step - 1) / step + 1 := by
    rcases le_or_lt step stop with h | h
    · have h2 : stop - 0 + step - 1 = (stop - step - 0 + step - 1) + step := by omega
      rw [h2, Nat.add_div_right _ hstep]
    · have h2 : stop - 0 + step - 1 = (stop - 1) + step := by omega
      have h3 : stop - step - 0 + step - 1 = step - 1 := by omega
      rw [h2, h3, Nat.add_div_right _ hstep,
        Nat.div_eq_of_lt (by omega), Nat.div_eq_of_lt (by omega)]
  rw [h1, List.range_succ_eq_map]
  simp only [List.map_cons, List.map_map]
  congr 1
  · simp
  · apply List.map_congr_left
    intro k _
    simp only [Function.comp_apply, Nat.succ_eq_add_one]
    ring

theorem mkBatches_nil (b : Nat) : mkBatches [] b = [] := by
  unfold mkBatches pyRange
  have h : ((List.nil : List String).length - 0 + b - 1) / b = 0 := by
    rcases Nat.eq_zero_or_pos b with hb | hb
    · subst hb; rfl
    · exact Nat.div_eq_of_lt (by simp; omega)
  rw [h]
  rfl

theorem mkBatches_cons (chunks : List String) (b : Nat) (hb : 0 < b)
    (hne : chunks ≠ []) :
    mkBatches chunks b
      = (0, chunks.take b)
        :: (mkBatches (chunks.drop b) b).map (fun p => (p.1 + b, p.2)) := by
  have hlen : 0 < chunks.length := List.length_pos.mpr hne
  unfold mkBatches
  rw [pyRange_zero_step_pos _ _ hb hlen]
  simp only [List.map_cons, List.drop_zero, List.map_map, List.length_drop]
  congr 1
  apply List.map_congr_left
  intro i _
  simp only [Function.comp_apply]
  rw [List.drop_drop, Nat.add_comm b i]

theorem batchMetadata_cons (d f : String) (s : Nat) (c : String) (cs : List String) :
    batchMetadata d f s (c :: cs) = ⟨d, f, s⟩ :: batchMetadata d f (s + 1) cs := by
  unfold batchMetadata
  rw [List.length_cons, List.range_succ_eq_map]
  simp only [List.map_cons, List.map_map, Nat.add_zero]
  congr 1
  apply List.map_congr_left
  intro k _
  simp only [Function.comp_apply, Nat.succ_eq_add_one]
  congr 1
  omega

theorem batchPoints_eq_indexedPoints (d f : String) :
    ∀ (batch : List String) (s : Nat),
      batchPoints d f (s, batch) = indexedPoints d f s batch := by
  intro batch
  induction batch with
  | nil => intro s; rfl
  | cons c cs ih =>
    intro s
    unfold batchPoints
    rw [batchMetadata_cons]
    simp only [List.zip_cons_cons, indexedPoints]
    congr 1
    exact ih (s + 1)

theorem indexedPoints_append (d f : String) :
    ∀ (l₁ l₂ : List String) (s : Nat),
      indexedPoints d f s (l₁ ++ l₂)
        = indexedPoints d f s l₁ ++ indexedPoints d f (s + l₁.length) l₂ := by
  intro l₁
  induction l₁ with
  | nil => intro l₂ s; simp [indexedPoints]
  | cons c cs ih =>
    intro l₂ s
    simp only [List.cons_append, indexedPoints, List.length_cons, List.append_eq]
    rw [ih]
    have h : s + 1 + cs.length = s + (cs.length + 1) := by omega
    rw [h]

theorem flatMap_map_pairshift (g : Nat × List String → List (String × ChunkMeta))
    (b : Nat) (batches : List (Nat × List String)) :
    ((batches.map (fun p => (p.1 + b, p.2))).flatMap g)
      = batches.flatMap (fun p => g (p.1 + b, p.2)) := by
  induction batches with
  | nil => rfl
  | cons p ps ih => simp only [List.map_cons, List.flatMap_cons, ih]

theorem flatMap_mkBatches_aux (d f : String) (b : Nat) (hb : 0 < b) :
    ∀ (n : Nat) (chunks : List String), chunks.length ≤ n →
      ∀ (s : Nat),
        ((mkBatches chunks b).flatMap (fun p => batchPoints d f (p.1 + s, p.2)))
          = indexedPoints d f s chunks := by
  intro n
  induction n with
  | zero =>
    intro chunks h s
    have hnil : chunks = [] := List.length_eq_zero.mp (Nat.le_zero.mp h)
    subst hnil
    simp [mkBatches_nil, indexedPoints]
  | succ n ih =>
    intro chunks h s
    by_cases hnil : chunks = []
    · subst hnil; simp [mkBatches_nil, indexedPoints]
    · rw [mkBatches_cons chunks b hb hnil]
      rw [List.flatMap_cons, flatMap_map_pairshift]
      have hdroplen : (chunks.drop b).length ≤ n := by
        have h1 := List.length_drop b chunks
        have h2 : 0 < chunks.length := List.length_pos.mpr hnil
        omega
      have hcongr :
          ((mkBatches (chunks.drop b) b).flatMap
            (fun p => batchPoints d f (p.1 + b + s, p.2)))
            = ((mkBatches (chunks.drop b) b).flatMap
              (fun p => batchPoints d f (p.1 + (b + s), p.2))) := by
        apply List.flatMap_congr
        intro p _
        have : p.1 + b + s = p.1 + (b + s) := by omega
        rw [this]
      rw [hcongr, ih (chunks.drop b) hdroplen (b + s)]
      rw [Nat.zero_add, batchPoints_eq_indexedPoints]
      conv_rhs => rw [← List.take_append_drop b chunks]
      rw [indexedPoints_append]
      rcases le_or_lt b chunks.length with hble | hbgt
      · have hlt : (chunks.take b).length = b := by
          rw [List.length_take]; omega
        rw [hlt, Nat.add_comm s b]
      · have hdnil : chunks.drop b = [] := List.drop_eq_nil_of_le (by omega)
        rw [hdnil]
        rfl

/-- Flattening the per-batch points of `mkBatches` in batch order gives
exactly chunk `i` with `chunk_id = i`. -/
theorem flatMap_mkBatches (d f : String) (b : Nat) (hb : 0 < b) (chunks : List String) :
    ((mkBatches chunks b).flatMap (batchPoints d f))
      = indexedPoints d f 0 chunks := by
  have h0 :
      ((mkBatches chunks b).flatMap (batchPoints d f))
        = ((mkBatches chunks b).flatMap (fun p => batchPoints d f (p.1 + 0, p.2))) := by
    apply List.flatMap_congr
    intro p _
    simp
  rw [h0]
  exact flatMap_mkBatches_aux d f b hb chunks.length chunks (Nat.le_refl _) 0

/-- C1: the scheduler slices a chunk list of length N into `ceil(N/25)`
contiguous batches (`(N + 25 - 1) / 25` of them), and no matter in which
order the batches are dispatched or completed (any permutation of the
batch list), the multiset of persisted (text, metadata) points is exactly
chunk `i` paired with `chunk_id = i`, for every `i < N`. -/
theorem scheduler_chunk_ids (chunks : List String) (d f : String)
    (dispatched : List (Nat × List String))
    (hperm : dispatched.Perm (mkBatches chunks 25)) :
    (mkBatches chunks 25).length = (chunks.length + 25 - 1) / 25
      ∧ (dispatched.flatMap (batchPoints d f)).Perm (indexedPoints d f 0 chunks) := by
  constructor
  · unfold mkBatches pyRange
    simp
  · have h1 : (dispatched.flatMap (batchPoints d f)).Perm
        ((mkBatches chunks 25).flatMap (batchPoints d f)) :=
      List.Perm.flatMap_right _ hperm
    rw [flatMap_mkBatches d f 25 (by norm_num) chunks] at h1
    exact h1

/-- Witness for C1 at a concrete document of 51 chunks whose three batches
complete in reverse order. -/
theorem scheduler_chunk_ids_witness :
    (mkBatches ((List.range 51).map (fun n => toString n)) 25).length
        = (((List.range 51).map (fun n => toString n)).length + 25 - 1) / 25
      ∧ (((mkBatches ((List.range 51).map (fun n => toString n)) 25).reverse.flatMap
            (batchPoints "doc-1" "file.pdf")).Perm
          (indexedPoints "doc-1" "file.pdf" 0 ((List.range 51).map (fun n => toString n)))) :=
  scheduler_chunk_ids ((List.range 51).map (fun n => toString n)) "doc-1" "file.pdf"
    (mkBatches ((List.range 51).map (fun n => toString n)) 25).reverse
    (List.reverse_perm _)

/-- C3 (amended): for a successfully completed stream, the persisted
assistant content is the concatenated deltas plus one `"\n\n"` (the
pre-marker part of the sources chunk), while the text the client sees
before the marker carries that `"\n\n"` twice — `stream_and_save` yields
`parts[0]` and then the whole sources chunk again, so emitted-before-marker
text and persisted content differ by one extra `"\n\n"`. -/
theorem stream_persisted_amended (deltas : List (List Char)) (json : List Char)
    (hd : ∀ d ∈ deltas, findSplit marker d = none) :
    (streamAndSave (ragStreamOk deltas json)).2 = deltas.flatten ++ blankSep
      ∧ textBeforeMarker (streamAndSave (ragStreamOk deltas json)).1
          = (deltas.flatten ++ blankSep) ++ blankSep := by
  constructor
  · show ((deltas ++ [blankSep ++ marker ++ json]).map chunkKept).flatten = _
    rw [List.map_append, List.flatten_append,
      flatten_map_chunkKept_passthrough deltas hd, List.map_cons, List.map_nil,
      List.flatten_cons, List.flatten_nil, chunkKept_sources, List.append_nil]
  · show textBeforeMarker ((deltas ++ [blankSep ++ marker ++ json]).flatMap chunkEmit) = _
    rw [List.flatMap_append, flatMap_chunkEmit_passthrough deltas hd,
      List.flatMap_cons, List.flatMap_nil, List.append_nil, chunkEmit_sources]
    rw [textBeforeMarker_append_none deltas _ hd]
    rw [textBeforeMarker_cons_none _ _ (by decide)]
    have hs : findSplit marker (blankSep ++ marker ++ json) = some (blankSep, json) := by
      rw [List.append_assoc]
      exact findSplit_marker_sources json
    rw [textBeforeMarker_cons_some _ _ _ _ hs, List.append_assoc]

/-- The claim's equality fails on a concrete stream: for deltas `["Hi"]`
and sources JSON `"[]"`, the text emitted before the marker is
`"Hi\n\n\n\n"` but the persisted content is `"Hi\n\n"`. -/
theorem stream_persisted_counterexample :
    textBeforeMarker (streamAndSave (ragStreamOk [['H', 'i']] ['[', ']'])).1
      ≠ (streamAndSave (ragStreamOk [['H', 'i']] ['[', ']'])).2 := by
  decide

/-- Witness for C3's amended statement at deltas `["Hi"]`, JSON `"[]"`. -/
theorem stream_persisted_witness :
    (streamAndSave (ragStreamOk [['H', 'i']] ['[', ']'])).2
        = [['H', 'i']].flatten ++ blankSep
      ∧ textBeforeMarker (streamAndSave (ragStreamOk [['H', 'i']] ['[', ']'])).1
          = ([['H', 'i']].flatten ++ blankSep) ++ blankSep :=
  stream_persisted_amended [['H', 'i']] ['[', ']'] (by decide)

/-- C4 (amended): a successfully completed stream is the deltas, then the
duplicated `"\n\n"`, then exactly one chunk carrying the marker
immediately followed by the JSON payload, with nothing after it; a stream
whose generation raises consists of the deltas followed by inline
`"Error: ..."` text, and no emitted chunk contains the marker at all. -/
theorem stream_shape_amended (deltas : List (List Char)) (json errMsg : List Char)
    (hd : ∀ d ∈ deltas, findSplit marker d = none)
    (he : findSplit marker (errorLead ++ errMsg) = none) :
    (streamAndSave (ragStreamOk deltas json)).1
        = deltas ++ [blankSep, blankSep ++ marker ++ json]
      ∧ (streamAndSave (ragStreamErr deltas errMsg)).1 = deltas ++ [errorLead ++ errMsg]
      ∧ ∀ c ∈ (streamAndSave (ragStreamErr deltas errMsg)).1,
          findSplit marker c = none := by
  have herr : (streamAndSave (ragStreamErr deltas errMsg)).1
      = deltas ++ [errorLead ++ errMsg] := by
    show (deltas ++ [errorLead ++ errMsg]).flatMap chunkEmit = _
    rw [List.flatMap_append, flatMap_chunkEmit_passthrough deltas hd,
      List.flatMap_cons, List.flatMap_nil, List.append_nil, chunkEmit_none _ he]
  refine ⟨?_, herr, ?_⟩
  · show (deltas ++ [blankSep ++ marker ++ json]).flatMap chunkEmit = _
    rw [List.flatMap_append, flatMap_chunkEmit_passthrough deltas hd,
      List.flatMap_cons, List.flatMap_nil, List.append_nil, chunkEmit_sources]
  · rw [herr]
    intro c hc
    rcases List.mem_append.mp hc with h | h
    · exact hd c h
    · rw [List.mem_singleton.mp h]
      exact he

/-- A stream in which generation raises: the emitted stream is the inline
error text alone, and the `__SOURCES__:` marker never occurs in it —
refuting "exactly one occurrence" for error streams. -/
theorem stream_shape_counterexample :
    (streamAndSave (ragStreamErr [] ['b', 'o', 'o', 'm'])).1
        = [errorLead ++ ['b', 'o', 'o', 'm']]
      ∧ occursIn marker
          ((streamAndSave (ragStreamErr [] ['b', 'o', 'o', 'm'])).1).flatten = false := by
  decide

/-- Witness for C4's amended statement at deltas `["Hi"]`, JSON `"[]"`,
error text `"boom"`. -/
theorem stream_shape_witness :
    (streamAndSave (ragStreamOk [['H', 'i']] ['[', ']'])).1
        = [['H', 'i']] ++ [blankSep, blankSep ++ marker ++ ['[', ']']]
      ∧ (streamAndSave (ragStreamErr [['H', 'i']] ['b', 'o', 'o', 'm'])).1
          = [['H', 'i']] ++ [errorLead ++ ['b', 'o', 'o', 'm']]
      ∧ ∀ c ∈ (streamAndSave (ragStreamErr [['H', 'i']] ['b', 'o', 'o', 'm'])).1,
          findSplit marker c = none :=
  stream_shape_amended [['H', 'i']] ['[', ']'] ['b', 'o', 'o', 'm']
    (by decide) (by decide)

theorem all_processing_nil :
    ∀ w ∈ ([] : List (String × Option String)), w.1 = "processing" := by
  simp

theorem all_processing_cons (m : Option String) (l : List (String × Option String))
    (h : ∀ w ∈ l, w.1 = "processing") :
    ∀ w ∈ ("processing", m) :: l, w.1 = "processing" := by
  intro w hw
  rcases List.mem_cons.mp hw with rfl | hw
  · rfl
  · exact h w hw

theorem statusWrites_append (l₁ l₂ : List PEvent) :
    statusWrites (l₁ ++ l₂) = statusWrites l₁ ++ statusWrites l₂ := by
  simp [statusWrites]

theorem statusWrites_replicate_upsert (n : Nat) :
    statusWrites (List.replicate n PEvent.upsertEv) = [] := by
  induction n with
  | zero => rfl
  | succ k ih => simp [List.replicate, statusWrites]

/-- C5 (amended): every run's status writes are a block of `processing`
writes followed by exactly one terminal write, `completed` or `failed`,
with nothing after it (topic extraction writes no status); `failed` is
written only when extraction raised or returned nothing, chunking raised
or returned no chunks, `create_collection` raised, or a batch failed
unrecovered. -/
theorem status_machine_amended (env : ProcEnv) :
    ∃ pre last, statusWrites (processEvents env) = pre ++ [last]
      ∧ (∀ w ∈ pre, w.1 = "processing")
      ∧ (last.1 = "completed" ∨ last.1 = "failed")
      ∧ (last.1 = "failed" →
          (∃ e, env.extractRes = .error e)
            ∨ (∃ t, env.extractRes = .ok t ∧ t.getD "" = "")
            ∨ (∃ e, env.chunksRes = .error e)
            ∨ env.chunksRes = .ok []
            ∨ (∃ e, env.collectionRes = .error e)
            ∨ (∃ e, env.batchRes = .error e)) := by
  obtain ⟨ex, ch, co, ups, ba⟩ := env
  rcases ex with e | t
  · refine ⟨[("processing", none), ("processing", some "Extracting text...")],
      ("failed", some e), ?_, ?_, Or.inr rfl, ?_⟩
    · simp [processEvents, statusWrites]
    · exact all_processing_cons _ _ (all_processing_cons _ _ (all_processing_nil))
    · intro _
      exact Or.inl ⟨e, rfl⟩
  · by_cases ht : t.getD "" = ""
    · refine ⟨[("processing", none), ("processing", some "Extracting text...")],
        ("failed", some "Failed to extract text"), ?_, ?_, Or.inr rfl, ?_⟩
      · simp [processEvents, statusWrites, ht]
      · exact all_processing_cons _ _ (all_processing_cons _ _ (all_processing_nil))
      · intro _
        exact Or.inr (Or.inl ⟨t, rfl, ht⟩)
    · rcases ch with e | chunks
      · refine ⟨[("processing", none), ("processing", some "Extracting text..."),
          ("processing", some "Chunking text...")],
          ("failed", some e), ?_, ?_, Or.inr rfl, ?_⟩
        · simp [processEvents, statusWrites, ht]
        · exact all_processing_cons _ _ (all_processing_cons _ _ (all_processing_cons _ _ (all_processing_nil)))
        · intro _
          exact Or.inr (Or.inr (Or.inl ⟨e, rfl⟩))
      · by_cases hc : chunks = []
        · refine ⟨[("processing", none), ("processing", some "Extracting text..."),
            ("processing", some "Chunking text...")],
            ("failed", some "No chunks generated"), ?_, ?_, Or.inr rfl, ?_⟩
          · simp [processEvents, statusWrites, ht, hc]
          · exact all_processing_cons _ _ (all_processing_cons _ _ (all_processing_cons _ _ (all_processing_nil)))
          · intro _
            exact Or.inr (Or.inr (Or.inr (Or.inl (by rw [hc]))))
        · rcases co with e | u
          · refine ⟨[("processing", none), ("processing", some "Extracting text..."),
              ("processing", some "Chunking text...")],
              ("failed", some e), ?_, ?_, Or.inr rfl, ?_⟩
            · simp [processEvents, statusWrites, ht, hc]
            · exact all_processing_cons _ _ (all_processing_cons _ _ (all_processing_cons _ _ (all_processing_nil)))
            · intro _
              exact Or.inr (Or.inr (Or.inr (Or.inr (Or.inl ⟨e, rfl⟩))))
          · rcases ba with e | v
            · refine ⟨[("processing", none), ("processing", some "Extracting text..."),
                ("processing", some "Chunking text..."),
                ("processing", some ("Generating embeddings ("
                  ++ toString chunks.length ++ " chunks)..."))],
                ("failed", some e), ?_, ?_, Or.inr rfl, ?_⟩
              · simp [processEvents, statusWrites, ht, hc, statusWrites_append,
                  statusWrites_replicate_upsert]
              · exact all_processing_cons _ _ (all_processing_cons _ _ (all_processing_cons _ _ (all_processing_cons _ _ (all_processing_nil))))
              · intro _
                exact Or.inr (Or.inr (Or.inr (Or.inr (Or.inr ⟨e, rfl⟩))))
            · refine ⟨[("processing", none), ("processing", some "Extracting text..."),
                ("processing", some "Chunking text..."),
                ("processing", some ("Generating embeddings ("
                  ++ toString chunks.length ++ " chunks)..."))],
                ("completed", none), ?_, ?_, Or.inl rfl, ?_⟩
              · simp [processEvents, statusWrites, ht, hc, statusWrites_append,
                  statusWrites_replicate_upsert]
              · exact all_processing_cons _ _ (all_processing_cons _ _ (all_processing_cons _ _ (all_processing_cons _ _ (all_processing_nil))))
              · intro hfail
                exact absurd hfail (by decide)

/-- A run in which extraction and chunking succeed with nonempty output
and no batch fails, yet the document ends `failed` — `create_collection`
raised, a cause the claim's list does not admit. -/
theorem status_machine_counterexample :
    statusWrites (processEvents envCollectionDown)
        = [("processing", none), ("processing", some "Extracting text..."),
           ("processing", some "Chunking text..."),
           ("failed", some "Connection refused")]
      ∧ envCollectionDown.extractRes = .ok (some "text")
      ∧ envCollectionDown.chunksRes = .ok ["chunk"]
      ∧ envCollectionDown.batchRes = .ok () := by
  refine ⟨?_, rfl, rfl, rfl⟩
  rfl

/-- C8: a run whose extraction returns no text (Python-falsy: `None` or
the empty string) writes `failed` with message "Failed to extract text"
as its final status and performs no collection creation and no upsert. -/
theorem empty_extraction_fails (env : ProcEnv)
    (h : env.extractRes = .ok none ∨ env.extractRes = .ok (some "")) :
    processEvents env
        = [PEvent.statusW "processing" none,
           PEvent.statusW "processing" (some "Extracting text..."),
           PEvent.statusW "failed" (some "Failed to extract text")]
      ∧ PEvent.collCreate ∉ processEvents env
      ∧ PEvent.upsertEv ∉ processEvents env := by
  obtain ⟨ex, ch, co, ups, ba⟩ := env
  have he : processEvents ⟨ex, ch, co, ups, ba⟩
      = [PEvent.statusW "processing" none,
         PEvent.statusW "processing" (some "Extracting text..."),
         PEvent.statusW "failed" (some "Failed to extract text")] := by
    rcases h with h | h <;> (simp only at h; subst h; simp [processEvents])
  refine ⟨he, ?_, ?_⟩ <;> rw [he] <;> decide

/-- Witness for C8 at a concrete run whose extraction returns `""`. -/
theorem empty_extraction_witness :
    processEvents envEmptyExtract
        = [PEvent.statusW "processing" none,
           PEvent.statusW "processing" (some "Extracting text..."),
           PEvent.statusW "failed" (some "Failed to extract text")]
      ∧ PEvent.collCreate ∉ processEvents envEmptyExtract
      ∧ PEvent.upsertEv ∉ processEvents envEmptyExtract :=
  empty_extraction_fails envEmptyExtract (Or.inr rfl)

theorem foldl_mergeStep_eq_dedup :
    ∀ (l : List SearchHit) (acc : List SearchHit × List String),
      l.foldl mergeStep acc
        = (acc.1 ++ dedupFirstAux acc.2 l,
           acc.2 ++ (dedupFirstAux acc.2 l).map (fun h => h.text)) := by
  intro l
  induction l with
  | nil => intro acc; simp [dedupFirstAux]
  | cons h t ih =>
    intro acc
    by_cases hm : h.text ∈ acc.2
    · rw [List.foldl_cons, show mergeStep acc h = acc from by simp [mergeStep, hm]]
      rw [ih acc]
      simp [dedupFirstAux, hm]
    · rw [List.foldl_cons,
        show mergeStep acc h = (acc.1 ++ [h], acc.2 ++ [h.text]) from by
          simp [mergeStep, hm]]
      rw [ih (acc.1 ++ [h], acc.2 ++ [h.text])]
      simp [dedupFirstAux, hm]

theorem dedupFirstAux_nodup :
    ∀ (l : List SearchHit) (seen : List String),
      ((dedupFirstAux seen l).map (fun h => h.text)).Nodup
        ∧ ∀ x ∈ (dedupFirstAux seen l).map (fun h => h.text), x ∉ seen := by
  intro l
  induction l with
  | nil => intro seen; simp [dedupFirstAux]
  | cons h t ih =>
    intro seen
    by_cases hm : h.text ∈ seen
    · rw [show dedupFirstAux seen (h :: t) = dedupFirstAux seen t from by
        simp [dedupFirstAux, hm]]
      exact ih seen
    · rw [show dedupFirstAux seen (h :: t)
          = h :: dedupFirstAux (seen ++ [h.text]) t from by simp [dedupFirstAux, hm]]
      obtain ⟨ihn, ihs⟩ := ih (seen ++ [h.text])
      constructor
      · rw [List.map_cons, List.nodup_cons]
        refine ⟨?_, ihn⟩
        intro hmem
        have := ihs h.text hmem
        simp at this
      · intro x hx
        rw [List.map_cons, List.mem_cons] at hx
        rcases hx with rfl | hx
        · exact hm
        · intro hxs
          exact ihs x hx (by simp [hxs])

/-- C6: both multi-query merge functions keep, of the hits concatenated
in query order then search-result order, exactly the first hit of each
distinct text (first occurrence wins), so no text repeats in the merged
result, and the number of chunk texts going into the final context never
exceeds the requested `num_chunks` budget. -/
theorem retrieval_merge_dedup (results : List (List SearchHit)) (budget : Nat) :
    mcqFinalChunks results budget
        = ((dedupFirst results.flatten).map (fun h => h.text)).take budget
      ∧ evalFinalChunks results budget = mcqFinalChunks results budget
      ∧ (mcqFinalChunks results budget).length ≤ budget
      ∧ (mcqFinalChunks results budget).Nodup := by
  have hfold : (results.foldl (fun acc hits => hits.foldl mergeStep acc) ([], [])).1
      = dedupFirst results.flatten := by
    rw [← List.foldl_flatten, foldl_mergeStep_eq_dedup results.flatten ([], [])]
    simp [dedupFirst]
  have hmcq : mcqFinalChunks results budget
      = ((dedupFirst results.flatten).map (fun h => h.text)).take budget := by
    rw [mcqFinalChunks, hfold]
  refine ⟨hmcq, ?_, ?_, ?_⟩
  · rw [evalFinalChunks, mcqFinalChunks, List.map_take]
  · rw [hmcq, List.length_take]
    exact min_le_left _ _
  · rw [hmcq]
    have hn : ((dedupFirst results.flatten).map (fun h => h.text)).Nodup :=
      (dedupFirstAux_nodup results.flatten []).1
    exact List.Nodup.sublist (List.take_sublist _ _) hn

/-- C7 fails in `rag_service._get_retrieval_chain`: with the two selected
documents `d1, d2` its filter is `must = [document_id = d1, document_id = d2]`,
a conjunction no point can satisfy, so that retrieval path returns no hit
from either document; `qdrant_service.search` builds the OR (`should`)
filter the claim describes, which matches points of either document and
only those. -/
theorem rag_filter_conjunctive :
    (∀ p : PointPayload, filterMatches p (ragChainFilter ["d1", "d2"]) = false)
      ∧ optFilterMatches ⟨"d1"⟩ (searchQueryFilter ["d1", "d2"]) = true
      ∧ optFilterMatches ⟨"d2"⟩ (searchQueryFilter ["d1", "d2"]) = true
      ∧ optFilterMatches ⟨"other"⟩ (searchQueryFilter ["d1", "d2"]) = false := by
  refine ⟨?_, by decide, by decide, by decide⟩
  intro p
  rcases p with ⟨d⟩
  by_cases h1 : d = "d1"
  · subst h1
    decide
  · simp [filterMatches, ragChainFilter, condMatches, lookupField, h1]

theorem countP_set (p : TaskPhase → Bool) :
    ∀ (ts : List TaskPhase) (i : Nat) (a b : TaskPhase), ts.get? i = some a →
      (ts.set i b).countP p + (if p a then 1 else 0)
        = ts.countP p + (if p b then 1 else 0) := by
  intro ts
  induction ts with
  | nil =>
    intro i a b h
    simp at h
  | cons x xs ih =>
    intro i a b h
    cases i with
    | zero =>
      simp only [List.get?] at h
      injection h with h
      simp only [List.set, List.countP_cons, ← h]
      omega
    | succ j =>
      simp only [List.get?] at h
      simp only [List.set, List.countP_cons]
      have hrec := ih j a b h
      omega

theorem countWorking_replicate_idle (n : Nat) :
    countWorking (List.replicate n TaskPhase.idle) = 0 := by
  induction n with
  | zero => rfl
  | succ k ih => simp [countWorking, List.replicate, List.countP_cons]

theorem sched_step_invariant (s s' : SchedState) (hs : SchedStep s s')
    (ih : s.sem + countWorking s.tasks = 10) :
    s'.sem + countWorking s'.tasks = 10 := by
  cases hs with
  | acquire i hi hpos =>
    have hc := countP_set (fun t => t == TaskPhase.working) s.tasks i
      TaskPhase.idle TaskPhase.working hi
    simp only [countWorking] at ih ⊢
    simp at hc
    show s.sem - 1
        + (s.tasks.set i TaskPhase.working).countP (fun t => t == TaskPhase.working)
      = 10
    omega
  | finish i hi =>
    have hc := countP_set (fun t => t == TaskPhase.working) s.tasks i
      TaskPhase.working TaskPhase.done hi
    simp only [countWorking] at ih ⊢
    simp at hc
    show s.sem + 1
        + (s.tasks.set i TaskPhase.done).countP (fun t => t == TaskPhase.working)
      = 10
    omega

theorem sched_invariant (n : Nat) (s : SchedState) (h : SchedReachable n s) :
    s.sem + countWorking s.tasks = 10 := by
  induction h with
  | init => simp [initSched, countWorking_replicate_idle]
  | step hr hstep ih => exact sched_step_invariant _ _ hstep ih

/-- C9: in every state the ingestion's event loop can reach, the number
of batch tasks inside the embed-or-upsert section is at most 10, and the
semaphore counter accounts exactly for the tasks inside (`sem + working
= 10`), i.e. admission is bounded by the counting semaphore of size 10. -/
theorem semaphore_bound (n : Nat) (s : SchedState) (h : SchedReachable n s) :
    countWorking s.tasks ≤ 10 ∧ s.sem + countWorking s.tasks = 10 := by
  have hinv := sched_invariant n s h
  exact ⟨by omega, hinv⟩

/-- Witness for C9: an ingestion of 3 batches after two admissions — two
tasks inside the section, counter at 8. -/
theorem semaphore_bound_witness :
    countWorking (((initSched 3).tasks.set 0 TaskPhase.working).set 1
        TaskPhase.working) ≤ 10
      ∧ 8 + countWorking (((initSched 3).tasks.set 0 TaskPhase.working).set 1
          TaskPhase.working) = 10 :=
  semaphore_bound 3
    ⟨8, ((initSched 3).tasks.set 0 TaskPhase.working).set 1 TaskPhase.working⟩
    (SchedReachable.step
      (SchedReachable.step SchedReachable.init
        (SchedStep.acquire (initSched 3) 0 rfl (by decide)))
      (SchedStep.acquire ⟨9, (initSched 3).tasks.set 0 TaskPhase.working⟩ 1
        rfl (by decide)))

/-- C10: the status-update helper never propagates an exception — it
always returns `.ok` — and when the database write fails the stored row
is left exactly as it was, so a document can keep a stale non-terminal
status (e.g. `processing` survives a failed `completed` write) while
processing continues past the failed write. -/
theorem update_status_never_raises (dbFails : Bool) (doc : DocumentRow)
    (status : String) (message : Option String) :
    updateDocumentStatus dbFails doc status message
        = .ok (if dbFails then doc else applyStatusUpdate doc status message)
      ∧ updateDocumentStatus true ⟨"processing", none⟩ "completed" none
          = .ok ⟨"processing", none⟩ := by
  constructor
  · cases dbFails <;> rfl
  · rfl

end Lumina
